import Mathlib

/-!
Verification of the dbrx `PropVal` dynamic value type (`src/Props.h`).

A shallow embedding of the `PropVal` discriminated-union value type of
databricxx: the nine-tag value representation, the floating-point
normalization in `PropVal(double)`, the equality operator, the accessor
coercions (`asBool`, `asInt`, `asLong64`), the sequence and ordered-map
containers with their `std::mismatch`-based `operator==`, the map access
operations (`operator[]`, `at`, `operator()`), the tag predicates
(`isNone` .. `isStruc`), and the `begin()`/`end()` iteration interface.

Machine integers are modelled as `Int` with explicit two-complement
wrapping where the code narrows (`static_cast<int32_t>`).  IEEE-754
doubles are modelled by an inductive `Double` that distinguishes NaN,
the two infinities and finite values (carried as exact rationals); the
only double operations the code uses — truncation to `int64_t` and
IEEE `==` — are modelled exactly on this type.
-/

namespace Dbrx

/-- Model of a C++ `double`: NaN, an infinity (`inf true` = +∞), or a
finite value carried as its exact rational magnitude.  Distinct NaN bit
patterns are not distinguished (the code never inspects NaN payloads). -/
inductive Double where
  | nan : Double
  | inf : Bool → Double
  | finite : ℚ → Double
deriving DecidableEq, Repr

/-- Truncation toward zero of a rational, as C++ float→int conversion does. -/
def ratTrunc (q : ℚ) : Int := if 0 ≤ q then ⌊q⌋ else ⌈q⌉

/-- Model of `static_cast<int64_t>(value)` on a double (`Props.h` line 470).
For a finite value whose truncation fits in `int64_t` this is truncation
toward zero; for NaN, the infinities and out-of-range finite values the
C++ conversion is undefined behaviour, realised on mainstream hardware
(x86 `cvttsd2si`) as `INT64_MIN`, which is what we model. -/
def Double.truncToInt64 : Double → Int
  | .finite q =>
      let t := ratTrunc q
      if -(2 ^ 63) ≤ t ∧ t < 2 ^ 63 then t else -(2 ^ 63)
  | _ => -(2 ^ 63)

/-- Model of the C++ comparison `intVal == value` (`Props.h` line 471),
with `intVal : int64_t` promoted to `double`.  Comparison against NaN or
an infinity is false; for finite values the comparison is exact rational
equality (the promotion of `intVal` is exact in every case the
constructor can reach: a non-integral double is below `2^53` in
magnitude, and an integral in-range double is reproduced exactly). -/
def Double.eqInt64 : Double → Int → Bool
  | .finite q, i => decide ((i : ℚ) = q)
  | _, _ => false

/-- IEEE-754 `==` on two doubles (`m_content.r == other.m_content.r`,
`Props.h` line 424): NaN compares unequal to everything, including an
identical NaN; infinities compare by sign; finite values compare by
exact value. -/
def Double.ieeeEq : Double → Double → Bool
  | .finite q, .finite q' => decide (q = q')
  | .inf s, .inf s' => decide (s = s')
  | _, _ => false

/-- The discriminant `PropVal::Type` (`Props.h` lines 42-52). -/
inductive Ty where
  | NONE | BOOL | INTEGER | REAL | NAME | STRING | ARRAY | INDEXED | STRUC
deriving DecidableEq, Repr

/-- The `PropVal` value tree.  A `name` carries the numeric id of the
interned symbol (the external `Name` type compares and orders by id);
`array` carries the `Array` element vector as a list; `indexed` and
`struc` carry the `std::map` entry sequences in comparator (ascending
key) order, with unique keys, as association lists. -/
inductive PropVal where
  | none : PropVal
  | bool : Bool → PropVal
  | integer : Int → PropVal
  | real : Double → PropVal
  | name : Nat → PropVal
  | string : String → PropVal
  | array : List PropVal → PropVal
  | indexed : List (Int × PropVal) → PropVal
  | struc : List (Nat × PropVal) → PropVal
deriving Repr

/-- The tag of a value (`PropVal::type()`). -/
def PropVal.typeOf : PropVal → Ty
  | .none => .NONE
  | .bool _ => .BOOL
  | .integer _ => .INTEGER
  | .real _ => .REAL
  | .name _ => .NAME
  | .string _ => .STRING
  | .array _ => .ARRAY
  | .indexed _ => .INDEXED
  | .struc _ => .STRUC

mutual

/-- Model of `PropVal::operator==` (`Props.h` lines 408-427).  The NONE, BOOL,
INTEGER and REAL cases are translated directly from the header.  The
remaining cases go through `comparisonImpl`, whose body lives in a
source file not part of the visible material; those cases are modelled
from the spec: "*symbol*, *text*, *sequence*, *indexed-map*, *struc-map*
require identical tag and structural/elementwise equality (recursive for
sequences; same key-set and per-key value equality, independent of
physical storage order, for maps)" — with entry lists kept in comparator
order, same key set + per-key equality is pairwise equality. -/
def propValEq (v w : PropVal) : Bool := match v, w with
  | .none, w => match w with
    | .none => true
    | _ => false
  | .bool b, w => match w with
    | .bool b' => decide (b = b')
    | .integer i => decide ((if b then (1 : Int) else 0) = i)
    | _ => false
  | .integer i, w => match w with
    | .integer i' => decide (i = i')
    | .bool b => decide (i = (if b then (1 : Int) else 0))
    | _ => false
  | .real d, w => match w with
    | .real d' => d.ieeeEq d'
    | _ => false
  | .name n, w => match w with
    | .name n' => decide (n = n')
    | _ => false
  | .string s, w => match w with
    | .string s' => decide (s = s')
    | _ => false
  | .array xs, w => match w with
    | .array ys => propValListEq xs ys
    | _ => false
  | .indexed es, w => match w with
    | .indexed fs => propValIEntriesEq es fs
    | _ => false
  | .struc es, w => match w with
    | .struc fs => propValNEntriesEq es fs
    | _ => false
termination_by structural v

/-- Elementwise equality of sequences: equal length and pairwise-equal
elements in order (spec-modelled part of `comparisonImpl`). -/
def propValListEq (xs ys : List PropVal) : Bool := match xs, ys with
  | [], [] => true
  | x :: xs, y :: ys => propValEq x y && propValListEq xs ys
  | _, _ => false
termination_by structural xs

/-- Entrywise equality of integer-keyed map entry lists (spec-modelled
part of `comparisonImpl`). -/
def propValIEntriesEq (xs ys : List (Int × PropVal)) : Bool := match xs, ys with
  | [], [] => true
  | (k, v) :: xs, (k', v') :: ys => (decide (k = k') && propValEq v v') && propValIEntriesEq xs ys
  | _, _ => false
termination_by structural xs

/-- Entrywise equality of symbol-keyed map entry lists (spec-modelled
part of `comparisonImpl`). -/
def propValNEntriesEq (xs ys : List (Nat × PropVal)) : Bool := match xs, ys with
  | [], [] => true
  | (k, v) :: xs, (k', v') :: ys => (decide (k = k') && propValEq v v') && propValNEntriesEq xs ys
  | _, _ => false
termination_by structural xs

end

/-- Model of `PropVal(Bool)` (`Props.h` line 463). -/
def PropVal.ofBool (b : Bool) : PropVal := .bool b

/-- Model of `PropVal(int32_t)` (`Props.h` line 465): widened to `Integer`. -/
def PropVal.ofInt32 (i : Int) : PropVal := .integer i

/-- Model of `PropVal(Integer)` (`Props.h` line 467). -/
def PropVal.ofInt64 (i : Int) : PropVal := .integer i

/-- Model of `PropVal(double)` (`Props.h` lines 469-479): truncate to `int64_t`,
compare back against the original double; store the integer variant on
success, the real variant otherwise. -/
def PropVal.ofDouble (d : Double) : PropVal :=
  let intVal := d.truncToInt64
  if d.eqInt64 intVal then .integer intVal else .real d

/-- Model of `PropVal::isNone` (`Props.h` line 289). -/
def PropVal.isNone (v : PropVal) : Bool := decide (v.typeOf = .NONE)

/-- Model of `PropVal::isBool` (`Props.h` line 290). -/
def PropVal.isBool (v : PropVal) : Bool := decide (v.typeOf = .BOOL)

/-- Model of `PropVal::isInteger` (`Props.h` line 291). -/
def PropVal.isInteger (v : PropVal) : Bool := decide (v.typeOf = .INTEGER)

/-- Model of `PropVal::isReal` (`Props.h` line 292):
`m_type == Type::INTEGER || m_type == Type::REAL`. -/
def PropVal.isReal (v : PropVal) : Bool :=
  decide (v.typeOf = .INTEGER) || decide (v.typeOf = .REAL)

/-- Model of `PropVal::isName` (`Props.h` line 293). -/
def PropVal.isName (v : PropVal) : Bool := decide (v.typeOf = .NAME)

/-- Model of `PropVal::isString` (`Props.h` line 294). -/
def PropVal.isString (v : PropVal) : Bool := decide (v.typeOf = .STRING)

/-- Model of `PropVal::isArray` (`Props.h` line 295). -/
def PropVal.isArray (v : PropVal) : Bool := decide (v.typeOf = .ARRAY)

/-- Model of `PropVal::isIndexed` (`Props.h` line 296). -/
def PropVal.isIndexed (v : PropVal) : Bool := decide (v.typeOf = .INDEXED)

/-- Model of `PropVal::isStruc` (`Props.h` line 297). -/
def PropVal.isStruc (v : PropVal) : Bool := decide (v.typeOf = .STRUC)

/-- Two-complement narrowing of an `int64_t` to `int32_t`
(`static_cast<int32_t>(value)` in `castToInt32`, `Props.h` line 207). -/
def wrap32 (i : Int) : Int := (i + 2 ^ 31) % 2 ^ 32 - 2 ^ 31

/-- Model of `PropVal::castToInt32` (`Props.h` lines 206-210): narrow, compare
back, fail (`throw std::bad_cast`, modelled as `Option.none`) when the
value does not round-trip. -/
def castToInt32 (i : Int) : Option Int :=
  let r := wrap32 i
  if r = i then some r else Option.none

/-- Model of `PropVal::castToBool` (`Props.h` lines 212-218): 0 ↦ false, 1 ↦ true,
anything else fails. -/
def castToBool (i : Int) : Option Bool :=
  if i = 0 then some false
  else if i = 1 then some true
  else Option.none

/-- Model of `PropVal::asBool` (`Props.h` lines 299-305).  `Option.none` models a
thrown `std::bad_cast`. -/
def PropVal.asBool : PropVal → Option Bool
  | .bool b => some b
  | .integer i => castToBool i
  | _ => Option.none

/-- Model of `PropVal::asInt` (`Props.h` lines 307-313). -/
def PropVal.asInt : PropVal → Option Int
  | .integer i => castToInt32 i
  | .bool b => some (if b then 1 else 0)
  | _ => Option.none

/-- Model of `PropVal::asLong64` (`Props.h` lines 315-321). -/
def PropVal.asLong64 : PropVal → Option Int
  | .integer i => some i
  | .bool b => some (if b then 1 else 0)
  | _ => Option.none

/-- Model of `Array::operator==` (`Props.h` lines 106-107), translated from
`std::mismatch(begin(), end(), other.begin()).first == end()`: scan the
left operand, stopping at its end or at the first pairwise-unequal
element, and report whether the left end was reached.  When the left
operand is strictly longer than the right one the C++ scan dereferences
past the end of the right operand, which is undefined behaviour; that
case is modelled here as `false` (the scan cannot reach the left end
within the right operand).  No length comparison is performed, so a left
operand that is a pointwise prefix of a longer right operand compares
equal. -/
def arrayOpEq : List PropVal → List PropVal → Bool
  | [], _ => true
  | _ :: _, [] => false
  | x :: xs, y :: ys => propValEq x y && arrayOpEq xs ys

/-- Model of `Map::operator==` (`Props.h` lines 170-171), the same
`std::mismatch` translation over the entry sequences (in comparator
order, as `std::map` iterates); entries compare as `std::pair` does:
key equality and `PropVal::operator==` on the mapped value. -/
def mapOpEq : List (Int × PropVal) → List (Int × PropVal) → Bool
  | [], _ => true
  | _ :: _, [] => false
  | (k, v) :: xs, (k', v') :: ys =>
      (decide (k = k') && propValEq v v') && mapOpEq xs ys

namespace IMap

/-- Lookup, as `std::map::find` does, over the ordered entry list of a
`PropVal::Map<Integer>`: the mapped value of `k`, if present. -/
def find? : List (Int × PropVal) → Int → Option PropVal
  | [], _ => Option.none
  | (k', v) :: rest, k => if k' = k then some v else find? rest k

/-- Model of `Map::hasMember` (`Props.h` line 144). -/
def hasMember (m : List (Int × PropVal)) (k : Int) : Bool := (find? m k).isSome

/-- Insertion of a fresh key into the ordered entry list, in key order,
as `std::map` insertion does; an already-present key keeps its mapped
value. -/
def insortNew : List (Int × PropVal) → Int → PropVal → List (Int × PropVal)
  | [], k, v => [(k, v)]
  | (k', v') :: rest, k, v =>
    if k < k' then (k, v) :: (k', v') :: rest
    else if k = k' then (k', v') :: rest
    else (k', v') :: insortNew rest k v

/-- Model of `Map::operator[]` (`Props.h` line 164), i.e. `std::map::operator[]`:
return the mapped value of `k`, inserting a default-constructed
(absent) `PropVal` first when `k` is missing.  The result pairs the
returned value with the map after the access. -/
def opIndex (m : List (Int × PropVal)) (k : Int) : PropVal × List (Int × PropVal) :=
  match find? m k with
  | some v => (v, m)
  | Option.none => (PropVal.none, insortNew m k PropVal.none)

/-- Model of `Map::at` (`Props.h` line 167), i.e. `std::map::at`: the mapped
value of `k`; a missing key fails (`std::out_of_range`, modelled as
`Option.none`). -/
def atKey (m : List (Int × PropVal)) (k : Int) : Option PropVal := find? m k

/-- Assignment through the reference returned by `operator[]`:
replace the mapped value of an existing key. -/
def assign : List (Int × PropVal) → Int → PropVal → List (Int × PropVal)
  | [], _, _ => []
  | (k', v') :: rest, k, v =>
    if k' = k then (k', v) :: rest else (k', v') :: assign rest k v

/-- Model of `Map::operator()(key, dflt)` (`Props.h` lines 154-162), both the
by-value and the by-move overload (they differ only in how `dflt` is
transferred): if `key` is present return `at(key)` and leave the map
unchanged, otherwise execute `operator[](key) = dflt` — insert a
default value under `key`, then assign `dflt` to it — and return it. -/
def opCall (m : List (Int × PropVal)) (k : Int) (dflt : PropVal) :
    PropVal × List (Int × PropVal) :=
  if hasMember m k then ((atKey m k).getD PropVal.none, m)
  else
    let m1 := (opIndex m k).2
    (dflt, assign m1 k dflt)

end IMap

/-- A `begin()`/`end()` pair: the storage the two pointers point into
and their offsets within it. -/
structure IterRange where
  base : List PropVal
  lo : Nat
  hi : Nat
deriving Repr

/-- Model of `PropVal::begin` and `PropVal::end` (`Props.h` lines 389-395): for an
ARRAY-tagged value the pair delimits the element storage; for every
other tag both calls return `this`, i.e. the same pointer, an empty
range based at the value itself. -/
def PropVal.iterRange : PropVal → IterRange
  | .array xs => ⟨xs, 0, xs.length⟩
  | v => ⟨[v], 0, 0⟩

/-- The elements a `for (auto &x : v)` loop visits: the slice between
the two offsets. -/
def IterRange.visited (r : IterRange) : List PropVal :=
  (r.base.drop r.lo).take (r.hi - r.lo)

/-- Whether a double is a NaN. -/
def Double.isNaN : Double → Bool
  | .nan => true
  | _ => false

mutual

/-- No NaN appears among the real payloads of a value tree. -/
def noNaN (v : PropVal) : Bool := match v with
  | .real d => !d.isNaN
  | .array xs => noNaNList xs
  | .indexed es => noNaNIEntries es
  | .struc es => noNaNNEntries es
  | _ => true
termination_by structural v

/-- Predicate `noNaN` over the elements of a sequence. -/
def noNaNList (xs : List PropVal) : Bool := match xs with
  | [] => true
  | x :: xs => noNaN x && noNaNList xs
termination_by structural xs

/-- Predicate `noNaN` over the values of an integer-keyed entry list. -/
def noNaNIEntries (xs : List (Int × PropVal)) : Bool := match xs with
  | [] => true
  | (_, v) :: xs => noNaN v && noNaNIEntries xs
termination_by structural xs

/-- Predicate `noNaN` over the values of a symbol-keyed entry list. -/
def noNaNNEntries (xs : List (Nat × PropVal)) : Bool := match xs with
  | [] => true
  | (_, v) :: xs => noNaN v && noNaNNEntries xs
termination_by structural xs

end


/-! Helper lemmas. -/

theorem ratTrunc_intCast (n : Int) : ratTrunc (n : ℚ) = n := by
  unfold ratTrunc
  split
  · exact Int.floor_intCast n
  · exact Int.ceil_intCast n

theorem Double.truncToInt64_range (d : Double) :
    -(2 ^ 63) ≤ d.truncToInt64 ∧ d.truncToInt64 < 2 ^ 63 := by
  have h63 : ((2 : Int) ^ 63) = 9223372036854775808 := by norm_num
  cases d with
  | finite q =>
      simp only [Double.truncToInt64]
      split
      · assumption
      · rw [h63]
        omega
  | nan =>
      simp only [Double.truncToInt64, h63]
      omega
  | inf s =>
      simp only [Double.truncToInt64, h63]
      omega

theorem Double.ieeeEq_symm (d d' : Double) : d.ieeeEq d' = d'.ieeeEq d := by
  cases d <;> cases d' <;> simp [Double.ieeeEq, decide_eq_decide, eq_comm]

theorem Double.ieeeEq_refl (d : Double) (h : d.isNaN = false) : d.ieeeEq d = true := by
  cases d with
  | nan => simp [Double.isNaN] at h
  | inf s => simp [Double.ieeeEq]
  | finite q => simp [Double.ieeeEq]

mutual

theorem propValEq_symm (v w : PropVal) : propValEq v w = propValEq w v := by
  cases v with
  | none => cases w <;> simp [propValEq]
  | bool b => cases w <;> simp [propValEq, decide_eq_decide, eq_comm]
  | integer i => cases w <;> simp [propValEq, decide_eq_decide, eq_comm]
  | real d => cases w <;> simp [propValEq, Double.ieeeEq_symm]
  | name n => cases w <;> simp [propValEq, decide_eq_decide, eq_comm]
  | string s => cases w <;> simp [propValEq, decide_eq_decide, eq_comm]
  | array xs =>
      cases w <;> simp only [propValEq] <;> exact propValListEq_symm _ _
  | indexed es =>
      cases w <;> simp only [propValEq] <;> exact propValIEntriesEq_symm _ _
  | struc es =>
      cases w <;> simp only [propValEq] <;> exact propValNEntriesEq_symm _ _

theorem propValListEq_symm (xs ys : List PropVal) :
    propValListEq xs ys = propValListEq ys xs := by
  cases xs with
  | nil => cases ys <;> simp [propValListEq]
  | cons x xs =>
      cases ys with
      | nil => simp [propValListEq]
      | cons y ys =>
          simp only [propValListEq]
          rw [propValEq_symm x y, propValListEq_symm xs ys]

theorem propValIEntriesEq_symm (xs ys : List (Int × PropVal)) :
    propValIEntriesEq xs ys = propValIEntriesEq ys xs := by
  cases xs with
  | nil => cases ys <;> simp [propValIEntriesEq]
  | cons e es =>
      cases ys with
      | nil => simp [propValIEntriesEq]
      | cons f fs =>
          obtain ⟨k, v⟩ := e
          obtain ⟨k', v'⟩ := f
          have hk : (decide (k = k')) = (decide (k' = k)) := by
            simp [decide_eq_decide, eq_comm]
          simp only [propValIEntriesEq]
          rw [hk, propValEq_symm v v', propValIEntriesEq_symm es fs]

theorem propValNEntriesEq_symm (xs ys : List (Nat × PropVal)) :
    propValNEntriesEq xs ys = propValNEntriesEq ys xs := by
  cases xs with
  | nil => cases ys <;> simp [propValNEntriesEq]
  | cons e es =>
      cases ys with
      | nil => simp [propValNEntriesEq]
      | cons f fs =>
          obtain ⟨k, v⟩ := e
          obtain ⟨k', v'⟩ := f
          have hk : (decide (k = k')) = (decide (k' = k)) := by
            simp [decide_eq_decide, eq_comm]
          simp only [propValNEntriesEq]
          rw [hk, propValEq_symm v v', propValNEntriesEq_symm es fs]

end

mutual

theorem propValEq_refl (v : PropVal) (h : noNaN v = true) : propValEq v v = true := by
  cases v with
  | none => rfl
  | bool b => simp [propValEq]
  | integer i => simp [propValEq]
  | real d =>
      have hd : d.isNaN = false := by
        cases d <;> simp_all [noNaN, Double.isNaN]
      simpa [propValEq] using Double.ieeeEq_refl d hd
  | name n => simp [propValEq]
  | string s => simp [propValEq]
  | array xs =>
      simpa [propValEq] using propValListEq_refl xs (by simpa [noNaN] using h)
  | indexed es =>
      simpa [propValEq] using propValIEntriesEq_refl es (by simpa [noNaN] using h)
  | struc es =>
      simpa [propValEq] using propValNEntriesEq_refl es (by simpa [noNaN] using h)

theorem propValListEq_refl (xs : List PropVal) (h : noNaNList xs = true) :
    propValListEq xs xs = true := by
  cases xs with
  | nil => rfl
  | cons x xs =>
      simp only [noNaNList, Bool.and_eq_true] at h
      simp only [propValListEq, Bool.and_eq_true]
      exact ⟨propValEq_refl x h.1, propValListEq_refl xs h.2⟩

theorem propValIEntriesEq_refl (xs : List (Int × PropVal)) (h : noNaNIEntries xs = true) :
    propValIEntriesEq xs xs = true := by
  cases xs with
  | nil => rfl
  | cons e es =>
      obtain ⟨k, v⟩ := e
      simp only [noNaNIEntries, Bool.and_eq_true] at h
      simp only [propValIEntriesEq, Bool.and_eq_true]
      exact ⟨⟨by simp, propValEq_refl v h.1⟩, propValIEntriesEq_refl es h.2⟩

theorem propValNEntriesEq_refl (xs : List (Nat × PropVal)) (h : noNaNNEntries xs = true) :
    propValNEntriesEq xs xs = true := by
  cases xs with
  | nil => rfl
  | cons e es =>
      obtain ⟨k, v⟩ := e
      simp only [noNaNNEntries, Bool.and_eq_true] at h
      simp only [propValNEntriesEq, Bool.and_eq_true]
      exact ⟨⟨by simp, propValEq_refl v h.1⟩, propValNEntriesEq_refl es h.2⟩

end


namespace IMap

theorem find?_insortNew_self (m : List (Int × PropVal)) (k : Int) (v : PropVal)
    (h : find? m k = Option.none) : find? (insortNew m k v) k = some v := by
  induction m with
  | nil => simp [insortNew, find?]
  | cons e rest ih =>
      obtain ⟨k', v'⟩ := e
      simp only [find?] at h
      by_cases hk : k' = k
      · simp [hk] at h
      · rw [if_neg hk] at h
        simp only [insortNew]
        by_cases h1 : k < k'
        · simp [h1, find?]
        · have h2 : ¬(k = k') := fun e => hk e.symm
          simp [h1, h2, find?, hk, ih h]

theorem find?_insortNew_ne (m : List (Int × PropVal)) (k : Int) (v : PropVal)
    (k2 : Int) (hne : k2 ≠ k) : find? (insortNew m k v) k2 = find? m k2 := by
  have hn2 : ¬(k = k2) := fun e => hne e.symm
  induction m with
  | nil => simp [insortNew, find?, hn2]
  | cons e rest ih =>
      obtain ⟨k', v'⟩ := e
      simp only [insortNew]
      by_cases h1 : k < k'
      · simp [h1, find?, hn2]
      · by_cases h2 : k = k'
        · simp [h1, h2, find?]
        · simp only [if_neg h1, if_neg h2, find?]
          by_cases h3 : k' = k2
          · simp [h3]
          · simp [h3, ih]

theorem find?_assign_self (m : List (Int × PropVal)) (k : Int) (v : PropVal)
    (h : hasMember m k = true) : find? (assign m k v) k = some v := by
  induction m with
  | nil => simp [hasMember, find?] at h
  | cons e rest ih =>
      obtain ⟨k', v'⟩ := e
      simp only [assign]
      by_cases hk : k' = k
      · simp [hk, find?]
      · simp only [if_neg hk, find?, hk, if_false]
        exact ih (by simpa [hasMember, find?, hk] using h)

theorem find?_assign_ne (m : List (Int × PropVal)) (k : Int) (v : PropVal)
    (k2 : Int) (hne : k2 ≠ k) : find? (assign m k v) k2 = find? m k2 := by
  have hn2 : ¬(k = k2) := fun e => hne e.symm
  induction m with
  | nil => simp [assign]
  | cons e rest ih =>
      obtain ⟨k', v'⟩ := e
      simp only [assign]
      by_cases hk : k' = k
      · simp [hk, find?, hn2]
      · simp only [if_neg hk, find?]
        by_cases h3 : k' = k2
        · simp [h3]
        · simp [h3, ih]

theorem hasMember_false_find? (m : List (Int × PropVal)) (k : Int)
    (h : hasMember m k = false) : find? m k = Option.none := by
  cases hf : find? m k with
  | none => rfl
  | some v => rw [hasMember, hf] at h; simp at h

end IMap


/-! Claim theorems. -/

/-- C1: constructing a `PropVal` from a double stores the integer
variant exactly when the double round-trips through `int64_t`
(truncate, then compare equal to the original double), and the real
variant otherwise; a finite double round-trips exactly when its value
is an integer in the `int64_t` range; `Value(1.0)` and `Value(int64 1)`
both yield the integer tag with value 1; `Value(1.5)` yields the real
tag with value 1.5; NaN and the infinities are stored as real. -/
theorem dbrx_C1 :
    (∀ d : Double,
        ((PropVal.ofDouble d).typeOf = Ty.INTEGER ↔ d.eqInt64 d.truncToInt64 = true) ∧
        (PropVal.ofDouble d = PropVal.integer d.truncToInt64 ∨
          PropVal.ofDouble d = PropVal.real d)) ∧
    (∀ q : ℚ, (PropVal.ofDouble (Double.finite q)).typeOf = Ty.INTEGER ↔
        ∃ i : Int, q = (i : ℚ) ∧ -(2 ^ 63) ≤ i ∧ i < 2 ^ 63) ∧
    PropVal.ofDouble (Double.finite 1) = PropVal.integer 1 ∧
    PropVal.ofInt64 1 = PropVal.integer 1 ∧
    PropVal.ofDouble (Double.finite (3 / 2)) = PropVal.real (Double.finite (3 / 2)) ∧
    (PropVal.ofDouble Double.nan = PropVal.real Double.nan ∧
      (PropVal.ofDouble Double.nan).typeOf = Ty.REAL) ∧
    (∀ s, PropVal.ofDouble (Double.inf s) = PropVal.real (Double.inf s)) := by
  refine ⟨?_, ?_, rfl, rfl, ?_, ⟨rfl, rfl⟩, fun s => rfl⟩
  · intro d
    by_cases h : d.eqInt64 d.truncToInt64 = true
    · exact ⟨by simp [PropVal.ofDouble, h, PropVal.typeOf], Or.inl (by simp [PropVal.ofDouble, h])⟩
    · exact ⟨by simp [PropVal.ofDouble, h, PropVal.typeOf], Or.inr (by simp [PropVal.ofDouble, h])⟩
  · intro q
    constructor
    · intro h
      by_cases hc : (Double.finite q).eqInt64 ((Double.finite q).truncToInt64) = true
      · refine ⟨(Double.finite q).truncToInt64, ?_,
          (Double.truncToInt64_range _).1, (Double.truncToInt64_range _).2⟩
        have h2 : ((((Double.finite q).truncToInt64) : Int) : ℚ) = q := by
          simpa [Double.eqInt64] using hc
        exact h2.symm
      · exfalso
        simp [PropVal.ofDouble, hc, PropVal.typeOf] at h
    · rintro ⟨i, rfl, h1, h2⟩
      have ht : (Double.finite ((i : Int) : ℚ)).truncToInt64 = i := by
        simp only [Double.truncToInt64, ratTrunc_intCast]
        rw [if_pos (show -(2 ^ 63) ≤ i ∧ i < 2 ^ 63 from ⟨h1, h2⟩)]
      simp [PropVal.ofDouble, ht, Double.eqInt64, PropVal.typeOf]
  · have hq0 : (0 : ℚ) ≤ 3 / 2 := by norm_num
    have hfl : ⌊(3 / 2 : ℚ)⌋ = 1 := by norm_num
    have ht : (Double.finite ((3 : ℚ) / 2)).truncToInt64 = 1 := by
      have ha : -(2 ^ 63) ≤ (1 : Int) := by norm_num
      have hb : (1 : Int) < 2 ^ 63 := by norm_num
      simp [Double.truncToInt64, ratTrunc, hq0, hfl, ha, hb]
    have hcond : (Double.finite ((3 : ℚ) / 2)).eqInt64
        ((Double.finite ((3 : ℚ) / 2)).truncToInt64) = false := by
      rw [ht]
      simp only [Double.eqInt64, decide_eq_false_iff_not]
      norm_num
    simp [PropVal.ofDouble, hcond]

/-- C2 (amended): equality is symmetric for every pair of values,
including the cross-tag boolean/integer comparison; it is reflexive for
every value whose tree contains no NaN real payload.  (As stated the
claim fails: `Value(NaN)` is constructible, is real-tagged, and does
not compare equal to itself, see the counterexample.) -/
theorem dbrx_C2 :
    (∀ v w : PropVal, propValEq v w = propValEq w v) ∧
    (∀ v : PropVal, noNaN v = true → propValEq v v = true) ∧
    (∀ (b : Bool) (i : Int),
        propValEq (PropVal.bool b) (PropVal.integer i) =
          propValEq (PropVal.integer i) (PropVal.bool b)) :=
  ⟨propValEq_symm, propValEq_refl, fun _ _ => propValEq_symm _ _⟩

/-- C2 counterexample: the value constructed from the NaN double is
real-tagged and does not compare equal to itself, so equality is not
reflexive for every constructible value. -/
theorem dbrx_C2_counterexample :
    PropVal.ofDouble Double.nan = PropVal.real Double.nan ∧
    propValEq (PropVal.ofDouble Double.nan) (PropVal.ofDouble Double.nan) = false :=
  ⟨rfl, by decide⟩

/-- C2 witness: reflexivity instantiated at a concrete NaN-free value. -/
theorem dbrx_C2_witness :
    propValEq (PropVal.array [PropVal.bool true, PropVal.integer 5])
      (PropVal.array [PropVal.bool true, PropVal.integer 5]) = true :=
  dbrx_C2.2.1 (PropVal.array [PropVal.bool true, PropVal.integer 5]) (by decide)

/-- C3: evaluation of `Array::operator==` at the failing input.  The
one-element array `[1]` is a strict prefix of the two-element array
`[1, 2]`, yet `operator==` (the `std::mismatch` translation `arrayOpEq`)
returns `true`, contradicting the claim that two arrays of different
lengths never compare equal. -/
theorem dbrx_C3 :
    arrayOpEq [PropVal.integer 1] [PropVal.integer 1, PropVal.integer 2] = true ∧
    List.length [PropVal.integer 1] = 1 ∧
    List.length [PropVal.integer 1, PropVal.integer 2] = 2 := by
  refine ⟨by decide, rfl, rfl⟩

/-- C4: evaluation of `Map::operator==` at the failing input.  The
one-entry map `{1 ↦ none}` has an entry list that is a strict prefix of
that of `{1 ↦ none, 2 ↦ 7}` (both in ascending key order), yet
`operator==` (the `std::mismatch` translation `mapOpEq`) returns
`true`, contradicting the claim that such maps never compare equal. -/
theorem dbrx_C4 :
    mapOpEq [(1, PropVal.none)] [(1, PropVal.none), (2, PropVal.integer 7)] = true ∧
    List.length [((1 : Int), PropVal.none)] = 1 ∧
    List.length [((1 : Int), PropVal.none), ((2 : Int), PropVal.integer 7)] = 2 := by
  refine ⟨by decide, rfl, rfl⟩

/-- C5 (amended): a real-tagged value compares equal only to another
real-tagged value, and then by IEEE floating-point equality of the two
doubles (not bit-for-bit equality: an identical NaN payload compares
unequal, see the counterexample); `real == integer` is false in both
operand orders. -/
theorem dbrx_C5 :
    (∀ (d : Double) (w : PropVal), propValEq (PropVal.real d) w = true →
        ∃ d', w = PropVal.real d') ∧
    (∀ d d' : Double, propValEq (PropVal.real d) (PropVal.real d') = d.ieeeEq d') ∧
    (∀ (d : Double) (i : Int),
        propValEq (PropVal.real d) (PropVal.integer i) = false ∧
        propValEq (PropVal.integer i) (PropVal.real d) = false) := by
  refine ⟨?_, fun d d' => rfl, fun d i => ⟨rfl, rfl⟩⟩
  intro d w h
  cases w <;> first
    | exact ⟨_, rfl⟩
    | simp [propValEq] at h

/-- C5 counterexample: the two NaN payloads are identical (bit-for-bit
equal), yet the two real-tagged values do not compare equal, so real
equality is not bit-for-bit equality of the doubles. -/
theorem dbrx_C5_counterexample :
    Double.nan = Double.nan ∧
    propValEq (PropVal.real Double.nan) (PropVal.real Double.nan) = false :=
  ⟨rfl, by decide⟩

/-- C5 witness: the only-real implication instantiated at a concrete
real pair. -/
theorem dbrx_C5_witness :
    ∃ d', PropVal.real (Double.finite 1) = PropVal.real d' :=
  dbrx_C5.1 (Double.finite 1) (PropVal.real (Double.finite 1)) (by decide)


/-- C6: `asBool` returns the stored boolean on a boolean-tagged value;
on an integer-tagged value it returns false for 0, true for 1 and fails
(`Option.none`, modelling the thrown `std::bad_cast`) for every other
integer; on every other tag it fails. -/
theorem dbrx_C6 :
    (∀ b : Bool, PropVal.asBool (PropVal.bool b) = some b) ∧
    (∀ i : Int, PropVal.asBool (PropVal.integer i) =
        if i = 0 then some false else if i = 1 then some true else Option.none) ∧
    PropVal.asBool (PropVal.integer 0) = some false ∧
    PropVal.asBool (PropVal.integer 1) = some true ∧
    PropVal.asBool (PropVal.integer 2) = Option.none ∧
    PropVal.asBool PropVal.none = Option.none ∧
    (∀ d, PropVal.asBool (PropVal.real d) = Option.none) ∧
    (∀ n, PropVal.asBool (PropVal.name n) = Option.none) ∧
    (∀ t, PropVal.asBool (PropVal.string t) = Option.none) ∧
    (∀ xs, PropVal.asBool (PropVal.array xs) = Option.none) ∧
    (∀ es, PropVal.asBool (PropVal.indexed es) = Option.none) ∧
    (∀ es, PropVal.asBool (PropVal.struc es) = Option.none) :=
  ⟨fun _ => rfl, fun _ => rfl, by decide, by decide, by decide, rfl, fun _ => rfl,
    fun _ => rfl, fun _ => rfl, fun _ => rfl, fun _ => rfl, fun _ => rfl⟩

/-- C7: `asInt` on an integer-tagged value succeeds with the stored
value exactly when it round-trips through 32 bits, and fails otherwise;
on a boolean it returns 0 or 1; `asLong64` on an integer-tagged value
always returns the stored value unchanged; for the value holding
`int64(1) << 40`, `asInt` fails while `asLong64` returns `2 ^ 40`. -/
theorem dbrx_C7 :
    (∀ i : Int, PropVal.asInt (PropVal.integer i) =
        if -(2 ^ 31) ≤ i ∧ i < 2 ^ 31 then some i else Option.none) ∧
    (∀ i : Int, PropVal.asLong64 (PropVal.integer i) = some i) ∧
    (∀ b : Bool, PropVal.asInt (PropVal.bool b) = some (if b then 1 else 0)) ∧
    (∀ b : Bool, PropVal.asLong64 (PropVal.bool b) = some (if b then 1 else 0)) ∧
    PropVal.asInt (PropVal.integer (2 ^ 40)) = Option.none ∧
    PropVal.asLong64 (PropVal.integer (2 ^ 40)) = some (2 ^ 40) := by
  refine ⟨?_, fun _ => rfl, fun _ => rfl, fun _ => rfl, by decide, rfl⟩
  intro i
  have h31 : ((2 : Int) ^ 31) = 2147483648 := by norm_num
  have h32 : ((2 : Int) ^ 32) = 4294967296 := by norm_num
  simp only [PropVal.asInt, castToInt32, wrap32, h31, h32]
  split_ifs with hA hB hB
  · exact congrArg some hA
  · exact absurd (by omega) hB
  · exact absurd (by omega) hA
  · rfl

/-- C8: for the integer-keyed ordered map, subscript access on a
missing key inserts a default (absent) value under the key and returns
it; bounds-checked lookup (`at`) on a missing key fails; get-or-insert
(`operator()`, by-value and by-move forms alike) returns the existing
value and leaves the map unchanged when the key is present, and
otherwise inserts the given default under the key and returns it. -/
theorem dbrx_C8 :
    (∀ (m : List (Int × PropVal)) (k : Int), IMap.hasMember m k = false →
        (IMap.opIndex m k).1 = PropVal.none ∧
        IMap.find? (IMap.opIndex m k).2 k = some PropVal.none ∧
        (∀ k2, k2 ≠ k → IMap.find? (IMap.opIndex m k).2 k2 = IMap.find? m k2)) ∧
    (∀ (m : List (Int × PropVal)) (k : Int), IMap.hasMember m k = false →
        IMap.atKey m k = Option.none) ∧
    (∀ (m : List (Int × PropVal)) (k : Int) (v dflt : PropVal),
        IMap.find? m k = some v → IMap.opCall m k dflt = (v, m)) ∧
    (∀ (m : List (Int × PropVal)) (k : Int) (dflt : PropVal),
        IMap.hasMember m k = false →
        (IMap.opCall m k dflt).1 = dflt ∧
        IMap.find? (IMap.opCall m k dflt).2 k = some dflt ∧
        (∀ k2, k2 ≠ k → IMap.find? (IMap.opCall m k dflt).2 k2 = IMap.find? m k2)) := by
  refine ⟨?_, ?_, ?_, ?_⟩
  · intro m k h
    have hf := IMap.hasMember_false_find? m k h
    refine ⟨by simp [IMap.opIndex, hf], ?_, ?_⟩
    · simp [IMap.opIndex, hf, IMap.find?_insortNew_self m k _ hf]
    · intro k2 hk2
      simp [IMap.opIndex, hf, IMap.find?_insortNew_ne m k _ k2 hk2]
  · intro m k h
    exact IMap.hasMember_false_find? m k h
  · intro m k v dflt h
    have hm : IMap.hasMember m k = true := by simp [IMap.hasMember, h]
    simp [IMap.opCall, hm, IMap.atKey, h]
  · intro m k dflt h
    have hf := IMap.hasMember_false_find? m k h
    have hm1 : IMap.find? (IMap.insortNew m k PropVal.none) k = some PropVal.none :=
      IMap.find?_insortNew_self m k _ hf
    have hmem1 : IMap.hasMember (IMap.insortNew m k PropVal.none) k = true := by
      simp [IMap.hasMember, hm1]
    refine ⟨by simp [IMap.opCall, h], ?_, ?_⟩
    · simp only [IMap.opCall, h, Bool.false_eq_true, if_false, IMap.opIndex, hf]
      exact IMap.find?_assign_self _ k dflt hmem1
    · intro k2 hk2
      simp only [IMap.opCall, h, Bool.false_eq_true, if_false, IMap.opIndex, hf]
      rw [IMap.find?_assign_ne _ k dflt k2 hk2, IMap.find?_insortNew_ne m k _ k2 hk2]

/-- C8 witness: the map operations instantiated on the concrete map
`{1 ↦ true}` with missing key 2 and present key 1. -/
theorem dbrx_C8_witness :
    ((IMap.opIndex [((1 : Int), PropVal.bool true)] 2).1 = PropVal.none ∧
      IMap.find? (IMap.opIndex [((1 : Int), PropVal.bool true)] 2).2 2 =
        some PropVal.none) ∧
    IMap.atKey [((1 : Int), PropVal.bool true)] 2 = Option.none ∧
    IMap.opCall [((1 : Int), PropVal.bool true)] 1 (PropVal.integer 9) =
      (PropVal.bool true, [((1 : Int), PropVal.bool true)]) ∧
    ((IMap.opCall [((1 : Int), PropVal.bool true)] 2 (PropVal.integer 9)).1 =
        PropVal.integer 9 ∧
      IMap.find? (IMap.opCall [((1 : Int), PropVal.bool true)] 2 (PropVal.integer 9)).2 2 =
        some (PropVal.integer 9) ∧
      IMap.find? (IMap.opCall [((1 : Int), PropVal.bool true)] 2 (PropVal.integer 9)).2 1 =
        IMap.find? [((1 : Int), PropVal.bool true)] 1) :=
  ⟨⟨(dbrx_C8.1 _ 2 (by decide)).1, (dbrx_C8.1 _ 2 (by decide)).2.1⟩,
    dbrx_C8.2.1 _ 2 (by decide),
    dbrx_C8.2.2.1 _ 1 (PropVal.bool true) (PropVal.integer 9) rfl,
    (dbrx_C8.2.2.2 _ 2 (PropVal.integer 9) (by decide)).1,
    (dbrx_C8.2.2.2 _ 2 (PropVal.integer 9) (by decide)).2.1,
    (dbrx_C8.2.2.2 _ 2 (PropVal.integer 9) (by decide)).2.2 1 (by decide)⟩

/-- C9: `isReal` is true exactly when the tag is INTEGER or REAL — in
particular it is true on an integer-tagged value, whose tag is
INTEGER — while every other tag predicate is true exactly on its own
tag. -/
theorem dbrx_C9 :
    (∀ v : PropVal,
      (v.isReal = true ↔ (v.typeOf = Ty.INTEGER ∨ v.typeOf = Ty.REAL)) ∧
      (v.isNone = true ↔ v.typeOf = Ty.NONE) ∧
      (v.isBool = true ↔ v.typeOf = Ty.BOOL) ∧
      (v.isInteger = true ↔ v.typeOf = Ty.INTEGER) ∧
      (v.isName = true ↔ v.typeOf = Ty.NAME) ∧
      (v.isString = true ↔ v.typeOf = Ty.STRING) ∧
      (v.isArray = true ↔ v.typeOf = Ty.ARRAY) ∧
      (v.isIndexed = true ↔ v.typeOf = Ty.INDEXED) ∧
      (v.isStruc = true ↔ v.typeOf = Ty.STRUC)) ∧
    (∀ i : Int, (PropVal.integer i).isReal = true ∧
      (PropVal.integer i).typeOf = Ty.INTEGER ∧
      (PropVal.integer i).isInteger = true) := by
  constructor
  · intro v
    simp [PropVal.isReal, PropVal.isNone, PropVal.isBool, PropVal.isInteger,
      PropVal.isName, PropVal.isString, PropVal.isArray, PropVal.isIndexed,
      PropVal.isStruc]
  · intro i
    exact ⟨rfl, rfl, rfl⟩

/-- C10: on a value whose tag is not ARRAY, `begin()` and `end()`
return the same pointer (to the value itself), so iteration visits no
elements; on an ARRAY-tagged value they delimit exactly the elements in
order. -/
theorem dbrx_C10 :
    (∀ v : PropVal, v.typeOf ≠ Ty.ARRAY →
        v.iterRange.lo = v.iterRange.hi ∧
        v.iterRange.base = [v] ∧
        v.iterRange.visited = []) ∧
    (∀ xs : List PropVal,
        (PropVal.array xs).iterRange.base = xs ∧
        (PropVal.array xs).iterRange.lo = 0 ∧
        (PropVal.array xs).iterRange.hi = xs.length ∧
        (PropVal.array xs).iterRange.visited = xs) := by
  constructor
  · intro v hv
    cases v with
    | array xs => exact absurd rfl hv
    | none => exact ⟨rfl, rfl, rfl⟩
    | bool b => exact ⟨rfl, rfl, rfl⟩
    | integer i => exact ⟨rfl, rfl, rfl⟩
    | real d => exact ⟨rfl, rfl, rfl⟩
    | name n => exact ⟨rfl, rfl, rfl⟩
    | string t => exact ⟨rfl, rfl, rfl⟩
    | indexed es => exact ⟨rfl, rfl, rfl⟩
    | struc es => exact ⟨rfl, rfl, rfl⟩
  · intro xs
    refine ⟨rfl, rfl, rfl, ?_⟩
    simp [PropVal.iterRange, IterRange.visited]

/-- C10 witness: the iteration interface at a concrete scalar and a
concrete array. -/
theorem dbrx_C10_witness :
    ((PropVal.integer 7).iterRange.lo = (PropVal.integer 7).iterRange.hi ∧
      (PropVal.integer 7).iterRange.visited = []) ∧
    (PropVal.array [PropVal.integer 1, PropVal.bool false]).iterRange.visited =
      [PropVal.integer 1, PropVal.bool false] :=
  ⟨⟨(dbrx_C10.1 (PropVal.integer 7) (by decide)).1,
      (dbrx_C10.1 (PropVal.integer 7) (by decide)).2.2⟩,
    (dbrx_C10.2 [PropVal.integer 1, PropVal.bool false]).2.2.2⟩

end Dbrx
